import Mathlib

/-!
Verification development for the DofusDataForge media-scraper core
(`scripts/global_media_scraper.py`).

The Python source is shallowly embedded below.  Pure functions of the
script become Lean functions; the standard-library routines the script
calls (`urllib.parse`, `os.path`, `hashlib.md5`, `str` methods) are
modelled from CPython 3.11 source, restricted where noted in the
individual doc comments.  Network, filesystem and randomness are passed
explicitly as oracle arguments.  Strings are processed as `List Char`
internally and wrapped back to `String` at the boundaries that mirror
the Python function signatures.
-/

set_option maxRecDepth 40000

namespace Scraper

/-- Lowercase one character.  Models CPython `str.lower` restricted to
ASCII input (all call sites in the script compare against ASCII
tables). -/
def lowerChar (c : Char) : Char :=
  if c.toNat ≥ 65 ∧ c.toNat ≤ 90 then Char.ofNat (c.toNat + 32) else c

/-- Lowercase a character list. -/
def lowerL (l : List Char) : List Char := l.map lowerChar

/-- Lowercase a string, models `str.lower` for ASCII strings. -/
def lowerS (s : String) : String := String.mk (lowerL s.toList)

/-- ASCII letter test, models `str.isalpha` for ASCII characters. -/
def isAsciiAlpha (c : Char) : Bool :=
  (65 ≤ c.toNat ∧ c.toNat ≤ 90) ∨ (97 ≤ c.toNat ∧ c.toNat ≤ 122)

/-- Suffix test on character lists, models `str.endswith`. -/
def endsWithL (l suf : List Char) : Bool :=
  decide ((l.drop (l.length - suf.length)) = suf)

/-- First index of a character, models `str.find` (`none` for -1). -/
def findCharIdx (c : Char) (l : List Char) : Option Nat :=
  l.findIdx? (fun x => x = c)

/-- Split at the first occurrence of `c`: models `str.split(c, 1)`
giving the part before and (when found) the part after. -/
def splitFirst (c : Char) : List Char → (List Char × Option (List Char))
  | [] => ([], none)
  | x :: xs =>
    if x = c then ([], some xs)
    else
      let r := splitFirst c xs
      (x :: r.1, r.2)

/-- Split on every occurrence of `c`, models `str.split(c)`. -/
def splitAll (c : Char) : List Char → List (List Char)
  | [] => [[]]
  | x :: xs =>
    if x = c then [] :: splitAll c xs
    else
      match splitAll c xs with
      | [] => [[x]]
      | h :: t => (x :: h) :: t

/-- Join character lists with a separator character, models
`sep.join(parts)`. -/
def joinWith (c : Char) : List (List Char) → List Char
  | [] => []
  | [x] => x
  | x :: xs => x ++ c :: joinWith c xs

/-- Membership of a character in a list, models `c in str`. -/
def hasChar (c : Char) (l : List Char) : Bool := l.contains c

/-! ## MD5 (models CPython `hashlib.md5` / RFC 1321) -/

/-- Encode one character as its UTF-8 bytes, models `str.encode()`. -/
def utf8Char (c : Char) : List Nat :=
  let n := c.toNat
  if n < 128 then [n]
  else if n < 2048 then
    [192 + n / 64, 128 + n % 64]
  else if n < 65536 then
    [224 + n / 4096, 128 + (n / 64) % 64, 128 + n % 64]
  else
    [240 + n / 262144, 128 + (n / 4096) % 64, 128 + (n / 64) % 64, 128 + n % 64]

/-- UTF-8 bytes of a string, models `str.encode()`. -/
def utf8 (s : String) : List Nat := s.toList.flatMap utf8Char

/-- Left-rotate a 32-bit word. -/
def rotl32 (x n : Nat) : Nat :=
  ((x <<< n) % 4294967296) ||| (x >>> (32 - n))

/-- The 64 MD5 sine-derived constants `K`. -/
def md5K : List Nat :=
  [3614090360, 3905402710, 606105819, 3250441966, 4118548399, 1200080426, 2821735955, 4249261313,
   1770035416, 2336552879, 4294925233, 2304563134, 1804603682, 4254626195, 2792965006, 1236535329,
   4129170786, 3225465664, 643717713, 3921069994, 3593408605, 38016083, 3634488961, 3889429448,
   568446438, 3275163606, 4107603335, 1163531501, 2850285829, 4243563512, 1735328473, 2368359562,
   4294588738, 2272392833, 1839030562, 4259657740, 2763975236, 1272893353, 4139469664, 3200236656,
   681279174, 3936430074, 3572445317, 76029189, 3654602809, 3873151461, 530742520, 3299628645,
   4096336452, 1126891415, 2878612391, 4237533241, 1700485571, 2399980690, 4293915773, 2240044497,
   1873313359, 4264355552, 2734768916, 1309151649, 4149444226, 3174756917, 718787259, 3951481745]

/-- The 64 MD5 per-round left-rotation amounts. -/
def md5S : List Nat :=
  [7, 12, 17, 22, 7, 12, 17, 22, 7, 12, 17, 22, 7, 12, 17, 22,
   5, 9, 14, 20, 5, 9, 14, 20, 5, 9, 14, 20, 5, 9, 14, 20,
   4, 11, 16, 23, 4, 11, 16, 23, 4, 11, 16, 23, 4, 11, 16, 23,
   6, 10, 15, 21, 6, 10, 15, 21, 6, 10, 15, 21, 6, 10, 15, 21]

/-- MD5 message padding: append `0x80`, zero bytes to 56 mod 64, then
the bit length as 8 little-endian bytes. -/
def md5Pad (msg : List Nat) : List Nat :=
  let l := msg.length
  let zeros := (64 + 56 - ((l + 1) % 64)) % 64
  let bitLen := (8 * l) % 18446744073709551616
  msg ++ [128] ++ List.replicate zeros 0 ++
    (List.range 8).map (fun i => (bitLen >>> (8 * i)) % 256)

/-- Read the sixteen little-endian 32-bit words of one 64-byte block. -/
def md5Words (block : List Nat) : List Nat :=
  (List.range 16).map (fun i =>
    block.getD (4 * i) 0 + 256 * block.getD (4 * i + 1) 0 +
    65536 * block.getD (4 * i + 2) 0 + 16777216 * block.getD (4 * i + 3) 0)

/-- One of the 64 MD5 operations, acting on state `(a, b, c, d)`. -/
def md5Op (m : List Nat) (st : Nat × Nat × Nat × Nat) (i : Nat) :
    Nat × Nat × Nat × Nat :=
  let a := st.1
  let b := st.2.1
  let c := st.2.2.1
  let d := st.2.2.2
  let f :=
    if i < 16 then (b &&& c) ||| ((b ^^^ 4294967295) &&& d)
    else if i < 32 then (d &&& b) ||| ((d ^^^ 4294967295) &&& c)
    else if i < 48 then b ^^^ c ^^^ d
    else c ^^^ (b ||| (d ^^^ 4294967295))
  let g :=
    if i < 16 then i
    else if i < 32 then (5 * i + 1) % 16
    else if i < 48 then (3 * i + 5) % 16
    else (7 * i) % 16
  let sum := (a + f + md5K.getD i 0 + m.getD g 0) % 4294967296
  let newB := (b + rotl32 sum (md5S.getD i 0)) % 4294967296
  (d, newB, b, c)

/-- Process one 64-byte block into the running MD5 state. -/
def md5Block (st : Nat × Nat × Nat × Nat) (block : List Nat) :
    Nat × Nat × Nat × Nat :=
  let m := md5Words block
  let r := (List.range 64).foldl (md5Op m) st
  ((st.1 + r.1) % 4294967296, (st.2.1 + r.2.1) % 4294967296,
   (st.2.2.1 + r.2.2.1) % 4294967296, (st.2.2.2 + r.2.2.2) % 4294967296)

/-- Fold the MD5 compression over `k` successive 64-byte blocks. -/
def md5Blocks (st : Nat × Nat × Nat × Nat) (bytes : List Nat) :
    Nat → Nat × Nat × Nat × Nat
  | 0 => st
  | k + 1 => md5Blocks (md5Block st (bytes.take 64)) (bytes.drop 64) k

/-- MD5 digest of a byte list, as the four final state words. -/
def md5State (msg : List Nat) : Nat × Nat × Nat × Nat :=
  let padded := md5Pad msg
  md5Blocks (1732584193, 4023233417, 2562383102, 271733878) padded
    (padded.length / 64)

/-- Hexadecimal character for a value below 16. -/
def hexChar (n : Nat) : Char :=
  if n < 10 then Char.ofNat (48 + n) else Char.ofNat (87 + n)

/-- Two lowercase hex characters of one byte. -/
def byteHex (b : Nat) : List Char := [hexChar (b / 16), hexChar (b % 16)]

/-- Eight hex characters of one 32-bit word, little-endian byte order. -/
def wordHexLE (w : Nat) : List Char :=
  byteHex (w % 256) ++ byteHex ((w >>> 8) % 256) ++
  byteHex ((w >>> 16) % 256) ++ byteHex ((w >>> 24) % 256)

/-- Models `hashlib.md5(s.encode()).hexdigest()`: the 32-character
lowercase hex digest of the UTF-8 encoding of `s`. -/
def md5hex (s : String) : List Char :=
  let st := md5State (utf8 s)
  wordHexLE st.1 ++ wordHexLE st.2.1 ++ wordHexLE st.2.2.1 ++ wordHexLE st.2.2.2

/-! ## `urllib.parse` (modelled from CPython 3.11 `Lib/urllib/parse.py`)

The model covers `urlsplit`, `urlparse`, `urlunsplit`, `urlunparse` and
`urljoin` with `allow_fragments=True`.  The validation-only code paths
that can raise (`_check_bracketed_host`, `_checknetloc`) are omitted:
they never alter the returned components, and none of the inputs used
in the theorems below trigger them. -/

/-- Characters valid in scheme names (`scheme_chars`). -/
def isSchemeChar (c : Char) : Bool :=
  isAsciiAlpha c ∨ (48 ≤ c.toNat ∧ c.toNat ≤ 57) ∨ c = '+' ∨ c = '-' ∨ c = '.'

/-- The `uses_relative` scheme list. -/
def usesRelative : List String :=
  ["", "ftp", "http", "gopher", "nntp", "imap",
   "wais", "file", "https", "shttp", "mms",
   "prospero", "rtsp", "rtsps", "rtspu", "sftp",
   "svn", "svn+ssh", "ws", "wss"]

/-- The `uses_netloc` scheme list. -/
def usesNetloc : List String :=
  ["", "ftp", "http", "gopher", "nntp", "telnet",
   "imap", "wais", "file", "mms", "https", "shttp",
   "snews", "prospero", "rtsp", "rtsps", "rtspu", "rsync",
   "svn", "svn+ssh", "sftp", "nfs", "git", "git+ssh",
   "ws", "wss"]

/-- The `uses_params` scheme list. -/
def usesParams : List String :=
  ["", "ftp", "hdl", "prospero", "http", "imap",
   "https", "shttp", "rtsp", "rtsps", "rtspu", "sip",
   "sips", "mms", "sftp", "tel"]

/-- Strip leading WHATWG C0-control-or-space characters and remove the
unsafe bytes tab, CR, LF, as `urlsplit` does to the url argument. -/
def cleanUrlChars (l : List Char) : List Char :=
  (l.dropWhile (fun c => c.toNat ≤ 32)).filter
    (fun c => ¬(c = '\t' ∨ c = '\r' ∨ c = '\n'))

/-- Strip C0-control-or-space from both ends and remove tab, CR, LF,
as `urlsplit` does to the scheme argument. -/
def cleanSchemeChars (l : List Char) : List Char :=
  let s := (l.dropWhile (fun c => c.toNat ≤ 32)).reverse.dropWhile
    (fun c => c.toNat ≤ 32)
  s.reverse.filter (fun c => ¬(c = '\t' ∨ c = '\r' ∨ c = '\n'))

/-- Result of `urlsplit`: scheme, netloc, path, query, fragment. -/
structure SplitResult where
  scheme : List Char
  netloc : List Char
  path : List Char
  query : List Char
  fragment : List Char
deriving DecidableEq

/-- Result of `urlparse`: `SplitResult` plus the params component. -/
structure ParseResult where
  scheme : List Char
  netloc : List Char
  path : List Char
  params : List Char
  query : List Char
  fragment : List Char
deriving DecidableEq

/-- Last index of a character, models `str.rfind` (`none` for -1). -/
def rfindChar (c : Char) (l : List Char) : Option Nat :=
  match findCharIdx c l.reverse with
  | none => none
  | some i => some (l.length - 1 - i)

/-- First index of `c` at or after `start`, models `str.find(c, start)`. -/
def findCharFrom (c : Char) (l : List Char) (start : Nat) : Option Nat :=
  (findCharIdx c (l.drop start)).map (· + start)

/-- The scheme-splitting step of `urlsplit`: recognize `scheme:` when
the part before the first colon is a nonempty run of scheme characters
starting with an ASCII letter; otherwise fall back to the default
scheme and the whole url. -/
def splitScheme (url ds : List Char) : List Char × List Char :=
  let sp := splitFirst ':' url
  match sp.2 with
  | some after =>
    if sp.1 ≠ [] ∧ isAsciiAlpha (sp.1.headD ' ') ∧
        sp.1.all isSchemeChar then
      (lowerL sp.1, after)
    else (ds, url)
  | none => (ds, url)

/-- The netloc/fragment/query-splitting steps of `urlsplit`, after the
scheme has been recognized. -/
def urlsplitRest (sr : List Char × List Char) : SplitResult :=
  let scheme := sr.1
  let rest := sr.2
  let nr :=
    if rest.take 2 = ['/', '/'] then
      let tail2 := rest.drop 2
      (tail2.takeWhile (fun c => ¬(c = '/' ∨ c = '?' ∨ c = '#')),
       tail2.dropWhile (fun c => ¬(c = '/' ∨ c = '?' ∨ c = '#')))
    else ([], rest)
  let netloc := nr.1
  let fr :=
    if hasChar '#' nr.2 then
      match splitFirst '#' nr.2 with
      | (b, some a) => (b, a)
      | (b, none) => (b, [])
    else (nr.2, [])
  let qr :=
    if hasChar '?' fr.1 then
      match splitFirst '?' fr.1 with
      | (b, some a) => (b, a)
      | (b, none) => (b, [])
    else (fr.1, [])
  ⟨scheme, netloc, qr.1, qr.2, fr.2⟩

/-- Models `urllib.parse.urlsplit(url, scheme, allow_fragments=True)`. -/
def urlsplitL (urlIn defaultScheme : List Char) : SplitResult :=
  urlsplitRest
    (splitScheme (cleanUrlChars urlIn) (cleanSchemeChars defaultScheme))

/-- Models `urllib.parse._splitparams`. -/
def splitparamsL (url : List Char) : List Char × List Char :=
  if hasChar '/' url then
    match findCharFrom ';' url ((rfindChar '/' url).getD 0) with
    | none => (url, [])
    | some i => (url.take i, url.drop (i + 1))
  else
    match findCharIdx ';' url with
    | none => (url, [])
    | some i => (url.take i, url.drop (i + 1))

/-- Models `urllib.parse.urlparse(url, scheme, allow_fragments=True)`. -/
def urlparseL (url defaultScheme : List Char) : ParseResult :=
  let s := urlsplitL url defaultScheme
  let pp :=
    if usesParams.contains (String.mk s.scheme) ∧ hasChar ';' s.path then
      splitparamsL s.path
    else (s.path, [])
  ⟨s.scheme, s.netloc, pp.1, pp.2, s.query, s.fragment⟩

/-- Models `urllib.parse.urlunsplit`. -/
def urlunsplitL (scheme netloc url query fragment : List Char) : List Char :=
  let u1 :=
    if netloc ≠ [] ∨
        (scheme ≠ [] ∧ usesNetloc.contains (String.mk scheme) ∧
         url.take 2 ≠ ['/', '/']) then
      let u0 := if url ≠ [] ∧ url.take 1 ≠ ['/'] then '/' :: url else url
      '/' :: '/' :: (netloc ++ u0)
    else url
  let u2 := if scheme ≠ [] then scheme ++ ':' :: u1 else u1
  let u3 := if query ≠ [] then u2 ++ '?' :: query else u2
  if fragment ≠ [] then u3 ++ '#' :: fragment else u3

/-- Models `urllib.parse.urlunparse`. -/
def urlunparseL (scheme netloc url params query fragment : List Char) :
    List Char :=
  let u := if params ≠ [] then url ++ ';' :: params else url
  urlunsplitL scheme netloc u query fragment

/-- Keep the first and last elements, drop empty middle segments:
models `segments[1:-1] = filter(None, segments[1:-1])`. -/
def filterMiddle (l : List (List Char)) : List (List Char) :=
  match l with
  | [] => []
  | [x] => [x]
  | x :: xs => x :: ((xs.dropLast.filter (fun s => s ≠ [])) ++ [xs.getLastD []])

/-- The `..`/`.` segment resolution loop of `urljoin`. -/
def resolveSegments (segments : List (List Char)) : List (List Char) :=
  segments.foldl
    (fun acc seg =>
      if seg = ['.', '.'] then acc.dropLast
      else if seg = ['.'] then acc
      else acc ++ [seg]) []

/-- Models `urllib.parse.urljoin(base, url)`. -/
def urljoinL (base url : List Char) : List Char :=
  if base = [] then url
  else if url = [] then base
  else
    let b := urlparseL base []
    let r := urlparseL url b.scheme
    if r.scheme ≠ b.scheme ∨ ¬ usesRelative.contains (String.mk r.scheme) then
      url
    else if usesNetloc.contains (String.mk r.scheme) ∧ r.netloc ≠ [] then
      urlunparseL r.scheme r.netloc r.path r.params r.query r.fragment
    else
      let netloc :=
        if usesNetloc.contains (String.mk r.scheme) then b.netloc else r.netloc
      if r.path = [] ∧ r.params = [] then
        let query := if r.query = [] then b.query else r.query
        urlunparseL r.scheme netloc b.path b.params query r.fragment
      else
        let base_parts0 := splitAll '/' b.path
        let base_parts :=
          if base_parts0.getLastD [] ≠ [] then base_parts0.dropLast
          else base_parts0
        let segments :=
          if r.path.take 1 = ['/'] then splitAll '/' r.path
          else filterMiddle (base_parts ++ splitAll '/' r.path)
        let resolved0 := resolveSegments segments
        let resolved :=
          if segments.getLastD [] = ['.'] ∨ segments.getLastD [] = ['.', '.']
          then resolved0 ++ [[]]
          else resolved0
        let joined := joinWith '/' resolved
        let path := if joined = [] then ['/'] else joined
        urlunparseL r.scheme netloc path r.params r.query r.fragment

/-! ## `os.path` (POSIX flavour, modelled from CPython `Lib/posixpath.py`) -/

/-- Models `posixpath.basename`. -/
def basenameL (p : List Char) : List Char :=
  match rfindChar '/' p with
  | none => p
  | some i => p.drop (i + 1)

/-- Models `posixpath.splitext`: the extension starts at the last dot,
unless every character between the last separator and that dot is
itself a dot (leading dots never begin an extension). -/
def splitextL (p : List Char) : List Char × List Char :=
  let s := match rfindChar '/' p with | none => 0 | some i => i + 1
  match rfindChar '.' p with
  | none => (p, [])
  | some d =>
    if s ≤ d ∧ ((p.drop s).take (d - s)).any (fun c => c ≠ '.') then
      (p.take d, p.drop d)
    else (p, [])

/-- Models `posixpath.join` for two components. -/
def pathJoin (a b : String) : String :=
  if b.toList.take 1 = ['/'] then b
  else if a.toList = [] ∨ a.toList.getLastD ' ' = '/' then a ++ b
  else a ++ ("/") ++ b

/-! ## Query-string helpers (`parse_qs`, `urlencode`, `quote_plus`) -/

/-- Models `urllib.parse.unquote` restricted to inputs containing no
percent escape; on those it is the identity.  (No query string handled
by the theorems below contains a percent sign.) -/
def unquoteModel (s : List Char) : List Char := s

/-- Replace plus signs by spaces, as `parse_qsl` does before unquoting. -/
def plusToSpace (s : List Char) : List Char :=
  s.map (fun c => if c = '+' then ' ' else c)

/-- Models `urllib.parse.parse_qsl(qs)` with the default
`keep_blank_values=False`: fields without `=` or with an empty value
are dropped. -/
def parse_qsl (qs : List Char) : List (List Char × List Char) :=
  let query_args := if qs = [] then [] else splitAll '&' qs
  query_args.filterMap (fun nv =>
    if nv = [] then none
    else
      match splitFirst '=' nv with
      | (_, none) => none
      | (n, some v) =>
        if v = [] then none
        else some (unquoteModel (plusToSpace n), unquoteModel (plusToSpace v)))

/-- Append a value to a key of an insertion-ordered multi-dict. -/
def addToMultiDict (d : List (List Char × List (List Char)))
    (k : List Char) (v : List Char) : List (List Char × List (List Char)) :=
  match d with
  | [] => [(k, [v])]
  | e :: rest =>
    if e.1 = k then (e.1, e.2 ++ [v]) :: rest
    else e :: addToMultiDict rest k v

/-- Models `urllib.parse.parse_qs(qs)`: a dict from key to value list,
keys in first-seen order (CPython dicts preserve insertion order). -/
def parse_qs (qs : List Char) : List (List Char × List (List Char)) :=
  (parse_qsl qs).foldl (fun d kv => addToMultiDict d kv.1 kv.2) []

/-- Models `query[k] = vs` on a dict: replace in place, else append. -/
def setKey (d : List (List Char × List (List Char))) (k : List Char)
    (vs : List (List Char)) : List (List Char × List (List Char)) :=
  match d with
  | [] => [(k, vs)]
  | e :: rest =>
    if e.1 = k then (e.1, vs) :: rest else e :: setKey rest k vs

/-- Byte always left unencoded by `urllib.parse.quote`: ASCII letters,
digits, and `_.-~`. -/
def alwaysSafeByte (b : Nat) : Bool :=
  (65 ≤ b ∧ b ≤ 90) ∨ (97 ≤ b ∧ b ≤ 122) ∨ (48 ≤ b ∧ b ≤ 57) ∨
  b = 95 ∨ b = 46 ∨ b = 45 ∨ b = 126

/-- Uppercase hexadecimal character for a value below 16. -/
def hexCharUpper (n : Nat) : Char :=
  if n < 10 then Char.ofNat (48 + n) else Char.ofNat (55 + n)

/-- Models `urllib.parse.quote(s, safe)` applied to the UTF-8 bytes of
`s`, with `safeExtra` the byte values of the `safe` argument. -/
def quoteBytes (safeExtra : List Nat) (bs : List Nat) : List Char :=
  bs.flatMap (fun b =>
    if alwaysSafeByte b ∨ safeExtra.contains b then [Char.ofNat b]
    else ['%', hexCharUpper (b / 16), hexCharUpper (b % 16)])

/-- Models `urllib.parse.quote_plus(s, safe=...)` with empty `safe`, as
called by `urlencode`. -/
def quote_plus (s : List Char) : List Char :=
  let bs := s.flatMap utf8Char
  if s.contains ' ' then
    (quoteBytes [32] bs).map (fun c => if c = ' ' then '+' else c)
  else quoteBytes [] bs

/-- Models `urllib.parse.urlencode(query, doseq=True)` on a dict whose
values are lists of strings. -/
def urlencode (query : List (List Char × List (List Char))) : List Char :=
  joinWith '&'
    (query.flatMap (fun kv =>
      kv.2.map (fun v => quote_plus kv.1 ++ '=' :: quote_plus v)))

/-! ## The scraper itself (`scripts/global_media_scraper.py`) -/

/-- The flat allow-list `MEDIA_EXTENSIONS` (lines 15-24). -/
def MEDIA_EXTENSIONS : List String :=
  [".jpg", ".jpeg", ".png", ".gif", ".bmp", ".webp", ".tiff", ".svg", ".ico", ".heic", ".jfif",
   ".mp4", ".webm", ".avi", ".mov", ".wmv", ".flv", ".mkv", ".m4v", ".3gp", ".mpeg", ".mpg",
   ".mp3", ".wav", ".ogg", ".flac", ".aac", ".m4a", ".wma", ".opus",
   ".pdf", ".doc", ".docx", ".xls", ".xlsx", ".ppt", ".pptx"]

/-- The category table `MEDIA_TYPE_MAP` (lines 26-31), in insertion
order as iterated by `dict.items()`. -/
def MEDIA_TYPE_MAP : List (String × List String) :=
  [(("Images"), [".jpg", ".jpeg", ".png", ".gif", ".bmp", ".webp", ".tiff", ".svg", ".ico", ".heic", ".jfif"]),
   (("Videos"), [".mp4", ".webm", ".avi", ".mov", ".wmv", ".flv", ".mkv", ".m4v", ".3gp", ".mpeg", ".mpg"]),
   (("Audio"), [".mp3", ".wav", ".ogg", ".flac", ".aac", ".m4a", ".wma", ".opus"]),
   (("Documents"), [".pdf", ".doc", ".docx", ".xls", ".xlsx", ".ppt", ".pptx"])]

/-- `clean_url` (lines 54-61): a single `urljoin` of the reference
against the base URL.  The `except` branch is unreachable in the model,
since the modelled `urljoin` is total. -/
def clean_url (url base_url : String) : String :=
  String.mk (urljoinL base_url.toList url.toList)

/-- `get_unique_filename` (lines 63-69): basename of the parsed path
with any `?`-suffix stripped, defaulting to `file`, with the first 8
hex characters of the MD5 of the full URL inserted before the
extension. -/
def get_unique_filename (url : String) : String :=
  let parsedPath := (urlparseL url.toList []).path
  let fn0 := (splitFirst '?' (basenameL parsedPath)).1
  let filename := if fn0 = [] then ("file").toList else fn0
  let ne := splitextL filename
  let hash_suffix := (md5hex url).take 8
  String.mk (ne.1 ++ '_' :: (hash_suffix ++ ne.2))

/-- `get_media_type` (lines 71-76): first category of `MEDIA_TYPE_MAP`
whose list contains the lowercased extension, else `Others`. -/
def get_media_type (extension : String) : String :=
  let ext := lowerS extension
  match MEDIA_TYPE_MAP.find? (fun p => p.2.contains ext) with
  | some p => p.1
  | none => ("Others")

/-- One parsed HTML element: tag name and attribute dict.  A document
is modelled as the list of its elements in document order, which is the
order `BeautifulSoup.find_all` yields matches in. -/
structure Element where
  name : String
  attrs : List (String × String)
deriving DecidableEq

/-- One discovered media asset with its metadata (the dict built on
lines 102-109). -/
structure MediaItem where
  filename : String
  url : String
  alt : String
  title : String
  tag : String
  page_url : String
deriving DecidableEq

/-- The `tags_and_attrs` scan list (lines 84-89). -/
def tags_and_attrs : List (String × String) :=
  [(("img"), ("src")), (("video"), ("src")),
   (("source"), ("src")), (("a"), ("href"))]

/-- The body of the inner loop of `get_media_links_with_metadata`: skip
a missing or empty attribute, require a case-insensitive allow-listed
suffix, then resolve the URL and build the `MediaItem`. -/
def extractFromTag (base_url page_url attrName : String) (tag : Element) :
    Option MediaItem :=
  match tag.attrs.lookup attrName with
  | none => none
  | some src =>
    if src = ("") then none
    else if MEDIA_EXTENSIONS.any
        (fun ext => endsWithL (lowerL src.toList) ext.toList) then
      let full_url := clean_url src base_url
      some ⟨get_unique_filename full_url, full_url,
        (tag.attrs.lookup (("alt"))).getD (""),
        (tag.attrs.lookup (("title"))).getD (""),
        tag.name, page_url⟩
    else none

/-- `get_media_links_with_metadata` (lines 78-111): for each pair of
`tags_and_attrs` in order, scan all elements of that tag name in
document order. -/
def get_media_links_with_metadata (html : List Element)
    (base_url page_url : String) : List MediaItem :=
  tags_and_attrs.flatMap (fun ta =>
    (html.filter (fun e => e.name = ta.1)).filterMap
      (extractFromTag base_url page_url ta.2))

/-- The items contributed by one `(tag_name, attr)` pair of the scan:
the elements of that tag name in document order, filtered and mapped by
the inner loop body. -/
def extractGroup (html : List Element) (base_url page_url tn attr : String) :
    List MediaItem :=
  (html.filter (fun e => e.name = tn)).filterMap
    (extractFromTag base_url page_url attr)

/-- What a single document-order pass would emit for one element: the
item built from the element's own scan attribute (src for img, video
and source elements; href for anchors). -/
def emitElement (base_url page_url : String) (e : Element) : Option MediaItem :=
  match tags_and_attrs.lookup e.name with
  | none => none
  | some attr => extractFromTag base_url page_url attr e

/-- `update_url_page` (lines 113-126): set or add the `page` query
parameter and re-serialize the URL. -/
def update_url_page (url : String) (page_number : Nat) : String :=
  let parsed := urlparseL url.toList []
  let query := parse_qs parsed.query
  let query2 := setKey query (("page").toList) [Nat.toDigits 10 page_number]
  let new_query := urlencode query2
  String.mk (urlunparseL parsed.scheme parsed.netloc parsed.path
    parsed.params new_query parsed.fragment)

/-! ## Pagination driver (`main`, lines 212-290)

The network is an oracle `net : String → Option (List Element)` mapping
a page URL to its parsed document when the fetch succeeds (`fetch_html`
returns the page text, here already parsed) and to `none` on any
request failure.  Logging and the polite randomized delay between
successful pages have no effect on the returned data and are not
modelled. -/

/-- Why the crawl loop returned. -/
inductive StopReason
  | tooManyFailures
  | noNewMedia
  | pagesExhausted
  | singleDone
  | singleFetchFailed
deriving DecidableEq

/-- Result of a crawl: the accumulated `media_info_all`, the
`all_urls_seen` registry (insertion order), the stop reason, and the
list of page URLs for which a network fetch was issued, in order. -/
structure CrawlResult where
  items : List MediaItem
  seen : List String
  reason : StopReason
  fetched : List String
deriving DecidableEq

/-- `all_urls_seen.add(url)` on the registry modelled as a list with
set semantics. -/
def addSeen (seen : List String) (u : String) : List String :=
  if seen.contains u then seen else seen ++ [u]

/-- Register the URLs of all items (the loop on lines 270-271). -/
def addAllSeen (seen : List String) (items : List MediaItem) : List String :=
  items.foldl (fun s it => addSeen s it.url) seen

/-- The pagination loop (lines 250-275), by recursion on the number of
remaining page numbers (`fuel`); `max_pages = 100` at the top level, so
running out of fuel is the `for` loop completing. -/
def crawlFrom (net : String → Option (List Element)) (start_url : String) :
    Nat → Nat → Nat → List String → List MediaItem → List String →
    CrawlResult
  | 0, _, _, seen, acc, fetched => ⟨acc, seen, .pagesExhausted, fetched⟩
  | fuel + 1, page_num, cf, seen, acc, fetched =>
    let page_url := update_url_page start_url page_num
    let fetched2 := fetched ++ [page_url]
    match net page_url with
    | none =>
      if cf + 1 ≥ 3 then ⟨acc, seen, .tooManyFailures, fetched2⟩
      else crawlFrom net start_url fuel (page_num + 1) (cf + 1) seen acc fetched2
    | some html =>
      let media_items := get_media_links_with_metadata html page_url page_url
      let new_items := media_items.filter (fun it => ¬ seen.contains it.url)
      if new_items = [] then ⟨acc, seen, .noNewMedia, fetched2⟩
      else
        crawlFrom net start_url fuel (page_num + 1) 0
          (addAllSeen seen new_items) (acc ++ new_items) fetched2

/-- `"page" in query` on line 225. -/
def has_pagination (url : String) : Bool :=
  (parse_qs (urlparseL url.toList []).query).any
    (fun kv => kv.1 = ("page").toList)

/-- The crawling phase of `main` (lines 233-275): single-page mode when
the start URL has no `page` parameter, else the pagination loop with
`max_pages = 100` starting from page 1. -/
def mainCrawl (net : String → Option (List Element)) (start_url : String) :
    CrawlResult :=
  if has_pagination start_url then
    crawlFrom net start_url 100 1 0 [] [] []
  else
    match net start_url with
    | none => ⟨[], [], .singleFetchFailed, [start_url]⟩
    | some html =>
      let media_items := get_media_links_with_metadata html start_url start_url
      ⟨media_items, addAllSeen [] media_items, .singleDone, [start_url]⟩

/-! ## Download scheduler (lines 128-192)

Oracles: `attemptOk url i` tells whether the `i`-th request for `url`
succeeds, `jitter url i` is the value `random.uniform(0, 1)` drawn
after that failed attempt, and `writeOk filepath` tells whether
streaming the response body to `filepath` succeeds.  The filesystem is
the list of existing file paths; opening a destination for writing
creates it.  The worker pool (`max_workers = 5`) is modelled by
processing the queue in submission order: each task reads none of the
shared state, so every per-item outcome is the same as in any
interleaving, and only the order of the failure list (which no claim
mentions) depends on completion order. -/

/-- `download_with_retries` (lines 128-140): returns the index of the
succeeding attempt (if any), the number of requests issued, and the
back-off delays slept, each `base_delay * 2 ^ attempt + jitter`. -/
def download_with_retries (attemptOk : Nat → Bool) (jitter : Nat → ℚ)
    (base_delay : ℚ) : Nat → Nat → Option Nat × Nat × List ℚ
  | _, 0 => (none, 0, [])
  | i, fuel + 1 =>
    if attemptOk i then (some i, 1, [])
    else
      let r := download_with_retries attemptOk jitter base_delay (i + 1) fuel
      (r.1, r.2.1 + 1, (base_delay * 2 ^ i + jitter i) :: r.2.2)

/-- `save_file` (lines 142-155): retry the download (3 attempts, base
delay 2), then stream to the destination; returns success, the updated
filesystem, the request count and the delays slept. -/
def save_file (attemptOk : Nat → Bool) (jitter : Nat → ℚ)
    (writeOk : String → Bool) (fs : List String) (filepath : String) :
    Bool × List String × Nat × List ℚ :=
  let r := download_with_retries attemptOk jitter 2 0 3
  match r.1 with
  | none => (false, fs, r.2.1, r.2.2)
  | some _ =>
    let fs2 := if fs.contains filepath then fs else fs ++ [filepath]
    (writeOk filepath, fs2, r.2.1, r.2.2)

/-- Destination path computed by `download_task` (lines 170-176):
`output_folder/media_type/filename`, with `media_type` the category of
the extension of the item's stored filename. -/
def taskFilepath (output_folder : String) (item : MediaItem) : String :=
  pathJoin
    (pathJoin output_folder
      (get_media_type (String.mk (splitextL item.filename.toList).2)))
    item.filename

/-- `download_task` (lines 169-179): build the destination path
(`taskFilepath`) and call `save_file` on it; returns the failed URL
(if any), the updated filesystem, the request count and the delays
slept.  Note that no branch consults the pre-existing filesystem. -/
def download_task (attemptOk : String → Nat → Bool)
    (jitter : String → Nat → ℚ) (writeOk : String → Bool)
    (output_folder : String) (fs : List String) (item : MediaItem) :
    Option String × List String × Nat × List ℚ :=
  let url := item.url
  let filepath := taskFilepath output_folder item
  let r := save_file (attemptOk url) (jitter url) writeOk fs filepath
  (if r.1 then none else some url, r.2)

/-- `download_media` (lines 157-192): run every task and collect the
failed URLs; returns `(failed_urls, final filesystem)`. -/
def download_media (attemptOk : String → Nat → Bool)
    (jitter : String → Nat → ℚ) (writeOk : String → Bool)
    (output_folder : String) (fs : List String)
    (media_info : List MediaItem) : List String × List String :=
  media_info.foldl
    (fun st item =>
      let r := download_task attemptOk jitter writeOk output_folder st.2 item
      (match r.1 with
       | none => st.1
       | some u => st.1 ++ [u], r.2.1))
    ([], fs)

/-! ## Derived-filename components (projections of `get_unique_filename`) -/

/-- The pre-hash filename `get_unique_filename` works from: basename of
the parsed path, `?`-suffix stripped, defaulting to `file`. -/
def derivedBase (url : String) : List Char :=
  let fn0 := (splitFirst '?' (basenameL (urlparseL url.toList []).path)).1
  if fn0 = [] then ("file").toList else fn0

/-- The stem part of the derived filename. -/
def derivedStem (url : String) : List Char := (splitextL (derivedBase url)).1

/-- The extension part of the derived filename. -/
def derivedExt (url : String) : List Char := (splitextL (derivedBase url)).2

/-- The 8-hex-character truncated MD5 tag inserted into the filename. -/
def urlHash8 (url : String) : List Char := (md5hex url).take 8

/-! ## Concrete inputs used by witnesses and counterexamples -/

/-- A URL whose truncated MD5 tag is `2abaa337`. -/
def collisionUrl1 : String := "https://a.test/p172752/icon.png"

/-- A distinct URL with the same basename and the same truncated MD5
tag `2abaa337`. -/
def collisionUrl2 : String := "https://a.test/p201091/icon.png"

/-- A start URL carrying a `page` parameter (pagination mode). -/
def pagedStart : String := "https://site.test/list?page=1"

/-- A page containing the same image reference twice. -/
def dupPage : List Element :=
  [⟨("img"), [(("src"), ("https://c.test/a.png"))]⟩,
   ⟨("img"), [(("src"), ("https://c.test/a.png"))]⟩]

/-- A network in which pages 1 and 2 both serve `dupPage` and all other
fetches fail. -/
def dupNet : String → Option (List Element) := fun u =>
  if u = update_url_page pagedStart 1 ∨ u = update_url_page pagedStart 2 then
    some dupPage
  else none

/-- A document whose only candidate is an anchor whose target ends in
an allow-listed extension inside its query string. -/
def queryHtml : List Element :=
  [⟨("a"), [(("href"), ("https://c.test/dl?f=x.png"))]⟩]

/-- A base/listing URL for extraction demos. -/
def demoBase : String := "https://c.test/list"

/-- A document with an anchor candidate before an image candidate in
document order. -/
def orderHtml : List Element :=
  [⟨("a"), [(("href"), ("https://c.test/x.pdf"))]⟩,
   ⟨("img"), [(("src"), ("https://c.test/y.png"))]⟩]

/-- A one-image document. -/
def imgHtml : List Element :=
  [⟨("img"), [(("src"), ("https://c.test/y.png"))]⟩]

/-- The item extracted from `imgHtml` against `demoBase`. -/
def imgItem : MediaItem :=
  ⟨("y_5fdd9ad4.png"), ("https://c.test/y.png"), (""), (""), ("img"), demoBase⟩

/-- A URL whose download succeeds only on the third attempt under
`cAttempt`. -/
def thirdTryUrl : String := "https://c.test/third.png"

/-- A URL whose download always fails under `cAttempt`. -/
def neverUrl : String := "https://c.test/never.png"

/-- A queued item for `thirdTryUrl`. -/
def cItem1 : MediaItem := ⟨("third.png"), thirdTryUrl, (""), (""), ("img"), ("")⟩

/-- A queued item for `neverUrl`. -/
def cItem2 : MediaItem := ⟨("never.png"), neverUrl, (""), (""), ("img"), ("")⟩

/-- Attempt oracle: `thirdTryUrl` succeeds on attempt index 2 only,
everything else always fails. -/
def cAttempt : String → Nat → Bool := fun u i =>
  if u = thirdTryUrl then decide (i = 2) else false

/-- Zero jitter oracle. -/
def cJitter : String → Nat → ℚ := fun _ _ => 0

/-- Always-succeeding disk-write oracle. -/
def cWrite : String → Bool := fun _ => true

/-- An item whose destination under `downloads` already exists in
`presentFs`. -/
def presentItem : MediaItem :=
  ⟨("icon_2abaa337.png"), collisionUrl1, (""), (""), ("img"), ("")⟩

/-- A filesystem already containing `presentItem`'s destination. -/
def presentFs : List String := [("downloads/Images/icon_2abaa337.png")]

/-! ## Shared lemmas -/

/-- The flat allow-list is exactly the concatenation of the four
category tables, in order. -/
theorem mediaExtensions_eq_flatMap :
    MEDIA_EXTENSIONS = MEDIA_TYPE_MAP.flatMap (fun p => p.2) := by decide

/-- The classifier returns `Others` exactly when the lowercased
extension is outside the allow-list. -/
theorem get_media_type_eq_others_iff (s : String) :
    get_media_type s = ("Others") ↔ ¬ lowerS s ∈ MEDIA_EXTENSIONS := by
  unfold get_media_type
  rcases hf : MEDIA_TYPE_MAP.find? (fun p => p.2.contains (lowerS s)) with _ | p
  · simp only [hf]
    constructor
    · intro _
      rw [mediaExtensions_eq_flatMap]
      intro hmem
      rw [List.mem_flatMap] at hmem
      obtain ⟨q, hq, hinq⟩ := hmem
      exact (List.find?_eq_none.mp hf q hq) (List.elem_iff.mpr hinq)
    · intro _
      trivial
  · have hp := List.find?_some hf
    have hpmem := List.mem_of_find?_eq_some hf
    simp only [hf]
    constructor
    · intro hcontra
      exfalso
      have hne : p.1 ≠ ("Others") := by
        simp only [MEDIA_TYPE_MAP, List.mem_cons, List.not_mem_nil, or_false] at hpmem
        rcases hpmem with h | h | h | h <;> (subst h; decide)
      exact hne hcontra
    · intro hnot
      exfalso
      apply hnot
      rw [mediaExtensions_eq_flatMap, List.mem_flatMap]
      exact ⟨p, hpmem, List.elem_iff.mp hp⟩

/-- Every scheme usable for relative joining also carries a netloc. -/
theorem usesRelative_sub_usesNetloc (s : String)
    (h : usesRelative.contains s = true) : usesNetloc.contains s = true := by
  have hm : s ∈ usesRelative := List.elem_iff.mp h
  apply List.elem_iff.mpr
  simp only [usesRelative, List.mem_cons, List.not_mem_nil, or_false] at hm
  rcases hm with h | h | h | h | h | h | h | h | h | h | h | h | h | h | h | h | h | h | h | h <;>
    (subst h; decide)

/-- Rebuilding a string from its character list is the identity. -/
theorem mk_toList (s : String) : String.mk s.toList = s := rfl

/-- A string is empty exactly when its character list is empty. -/
theorem toList_eq_nil_iff (s : String) : s.toList = [] ↔ s = ("") := by
  constructor
  · intro h
    cases s with
    | mk l => cases h; rfl
  · intro h
    subst h
    rfl

/-- When the url carries its own scheme, the scheme-splitting step
ignores the supplied default. -/
theorem splitScheme_default_irrelevant (url ds : List Char)
    (h : (splitScheme url []).1 ≠ []) :
    splitScheme url ds = splitScheme url [] := by
  unfold splitScheme at h ⊢
  rcases hsp : splitFirst ':' url with ⟨before, rest⟩
  simp only [hsp] at h ⊢
  cases rest with
  | none => exact absurd rfl h
  | some after =>
    simp only at h ⊢
    by_cases hc : before ≠ [] ∧ isAsciiAlpha (before.headD ' ') ∧
        before.all isSchemeChar
    · rw [if_pos hc, if_pos hc]
    · rw [if_neg hc] at h
      exact absurd rfl h

/-- When the url carries its own scheme, `urlsplit` ignores the default
scheme argument. -/
theorem urlsplitL_default_irrelevant (u ds : List Char)
    (h : (urlsplitL u []).scheme ≠ []) :
    urlsplitL u ds = urlsplitL u [] := by
  have hsch : (splitScheme (cleanUrlChars u) []).1 ≠ [] := by
    intro hnil
    apply h
    show (urlsplitRest (splitScheme (cleanUrlChars u) (cleanSchemeChars []))).scheme = []
    have : cleanSchemeChars ([] : List Char) = [] := rfl
    rw [this]
    exact hnil
  unfold urlsplitL
  have : cleanSchemeChars ([] : List Char) = [] := rfl
  rw [this, splitScheme_default_irrelevant (cleanUrlChars u) (cleanSchemeChars ds) hsch]

/-- When the url carries its own scheme, `urlparse` ignores the default
scheme argument. -/
theorem urlparseL_default_irrelevant (u ds : List Char)
    (h : (urlparseL u []).scheme ≠ []) :
    urlparseL u ds = urlparseL u [] := by
  have hs : (urlsplitL u []).scheme ≠ [] := h
  unfold urlparseL
  rw [urlsplitL_default_irrelevant u ds hs]

/-! ## C7 — media classifier -/

/-- C7 counterexample: the claim says a dotless extension such as
`jpg` classifies as Images, but `get_media_type` only matches dotted
table entries and returns `Others` for `jpg`. -/
theorem c7_counterexample :
    get_media_type ("jpg") = ("Others") ∧ ("Others") ≠ ("Images") := by
  constructor
  · decide
  · decide

/-- C7 (amended): `get_media_type` is total, returning one of the four
category names or `Others`; it returns `Others` exactly when the
lowercased extension is outside the dotted allow-list (so a leading dot
is required, not optional); and it is case-insensitive: inputs with the
same lowercasing classify identically. -/
theorem c7_classifier_total_dotted_case_insensitive (s : String) :
    (get_media_type s = ("Images") ∨ get_media_type s = ("Videos") ∨
     get_media_type s = ("Audio") ∨ get_media_type s = ("Documents") ∨
     get_media_type s = ("Others"))
  ∧ (get_media_type s = ("Others") ↔ ¬ lowerS s ∈ MEDIA_EXTENSIONS)
  ∧ (∀ t : String, lowerS s = lowerS t → get_media_type s = get_media_type t) := by
  refine ⟨?_, get_media_type_eq_others_iff s, ?_⟩
  · unfold get_media_type
    rcases hf : MEDIA_TYPE_MAP.find? (fun p => p.2.contains (lowerS s)) with _ | p
    · simp only [hf]
      tauto
    · have hpmem := List.mem_of_find?_eq_some hf
      simp only [MEDIA_TYPE_MAP, List.mem_cons, List.not_mem_nil, or_false] at hpmem
      simp only [hf]
      rcases hpmem with h | h | h | h <;> (subst h; tauto)
  · intro t ht
    unfold get_media_type
    rw [ht]

/-- C7 witness: `.JPG` and `.jpg` classify identically. -/
theorem c7_witness : get_media_type (".JPG") = get_media_type (".jpg") :=
  (c7_classifier_total_dotted_case_insensitive (".JPG")).2.2 (".jpg") (by decide)

/-! ## C8 — derived filenames -/

/-- C8 counterexample: two distinct URLs sharing the basename
`icon.png` whose 32-bit truncated MD5 tags collide, so their derived
filenames coincide. -/
theorem c8_counterexample :
    collisionUrl1 ≠ collisionUrl2
  ∧ basenameL (urlparseL collisionUrl1.toList []).path = ("icon.png").toList
  ∧ basenameL (urlparseL collisionUrl2.toList []).path = ("icon.png").toList
  ∧ get_unique_filename collisionUrl1 = get_unique_filename collisionUrl2 := by
  refine ⟨by decide, by decide, by decide, by decide⟩

/-- C8 (amended): the derived filename is the stem, an underscore, the
8-hex truncated MD5 of the full URL, then the extension; two URLs with
the same derived stem and extension receive distinct filenames exactly
when their truncated hashes differ (truncation to 32 bits admits
collisions). -/
theorem c8_distinct_iff_hash_differs (u1 u2 : String)
    (hstem : derivedStem u1 = derivedStem u2)
    (hext : derivedExt u1 = derivedExt u2) :
    (get_unique_filename u1 = String.mk
      (derivedStem u1 ++ '_' :: (urlHash8 u1 ++ derivedExt u1)))
  ∧ (get_unique_filename u1 = get_unique_filename u2 ↔ urlHash8 u1 = urlHash8 u2) := by
  have hlen : ∀ u : String, (urlHash8 u).length = 8 := by
    intro u
    have h32 : (md5hex u).length = 32 := by
      simp [md5hex, wordHexLE, byteHex, List.length_append]
    simp [urlHash8, List.length_take, h32]
  have hform : ∀ u : String, get_unique_filename u = String.mk
      (derivedStem u ++ '_' :: (urlHash8 u ++ derivedExt u)) := by
    intro u
    rfl
  refine ⟨hform u1, ?_⟩
  rw [hform u1, hform u2, hstem, hext]
  constructor
  · intro h
    rw [String.ext_iff] at h
    simp only [String.mk] at h
    have h2 := (List.append_inj h rfl).2
    have h3 := List.cons_injective h2
    exact (List.append_inj h3 (by rw [hlen u1, hlen u2])).1
  · intro h
    rw [h]

/-- C8 witness: the claim's example pair derives distinct filenames,
since both have stem `icon` and extension `.png` but different
truncated hashes. -/
theorem c8_witness :
    get_unique_filename ("https://a.test/x/icon.png") ≠
    get_unique_filename ("https://b.test/y/icon.png") := by
  intro he
  have h := (c8_distinct_iff_hash_differs ("https://a.test/x/icon.png")
    ("https://b.test/y/icon.png") (by decide) (by decide)).2.mp he
  exact absurd h (by decide)

/-! ## C9 — URL resolution -/

/-- C9 counterexample: `clean_url` applied to the absolute reference
`http://a.test/x?` (same scheme as the base) re-serializes it, dropping
the empty query separator, so the reference is not returned
unchanged. -/
theorem c9_counterexample :
    clean_url ("http://a.test/x?") ("http://b.test/") = ("http://a.test/x")
  ∧ ("http://a.test/x") ≠ ("http://a.test/x?") := by
  refine ⟨by decide, by decide⟩

/-- C9 (amended): on a nonempty already-absolute reference (own scheme
and netloc) and nonempty base, `clean_url` never joins against the
base: the result is either the reference verbatim (scheme differing
from the base's, or not a relative-use scheme) or the re-serialization
of the reference's own parsed components — no component of the base
occurs in it; and resolution is deterministic. -/
theorem c9_absolute_not_rejoined (u b : String) (hu : u ≠ ("")) (hb : b ≠ (""))
    (hs : (urlparseL u.toList []).scheme ≠ [])
    (hn : (urlparseL u.toList []).netloc ≠ []) :
    (clean_url u b = u ∨
     clean_url u b = String.mk (urlunparseL (urlparseL u.toList []).scheme
       (urlparseL u.toList []).netloc (urlparseL u.toList []).path
       (urlparseL u.toList []).params (urlparseL u.toList []).query
       (urlparseL u.toList []).fragment))
  ∧ clean_url u b = clean_url u b := by
  refine ⟨?_, rfl⟩
  have hul : ¬ u.toList = [] := fun h => hu ((toList_eq_nil_iff u).mp h)
  have hbl : ¬ b.toList = [] := fun h => hb ((toList_eq_nil_iff b).mp h)
  unfold clean_url urljoinL
  rw [if_neg hbl, if_neg hul]
  dsimp only
  rw [urlparseL_default_irrelevant u.toList (urlparseL b.toList []).scheme hs]
  by_cases hbr : (urlparseL u.toList []).scheme ≠ (urlparseL b.toList []).scheme ∨
      ¬ usesRelative.contains (String.mk (urlparseL u.toList []).scheme) = true
  · left
    rw [if_pos hbr]
    exact mk_toList u
  · right
    push_neg at hbr
    have hnet : usesNetloc.contains (String.mk (urlparseL u.toList []).scheme) = true :=
      usesRelative_sub_usesNetloc _ hbr.2
    rw [if_neg (by push_neg; exact hbr), if_pos ⟨hnet, hn⟩]

/-- C9 witness: a canonical absolute reference resolves to itself
against an unrelated base. -/
theorem c9_witness :
    clean_url ("https://a.test/x/icon.png") ("https://b.test/") =
      ("https://a.test/x/icon.png") := by
  rcases (c9_absolute_not_rejoined ("https://a.test/x/icon.png") ("https://b.test/")
    (by decide) (by decide) (by decide) (by decide)).1 with h | h
  · exact h
  · rw [h]
    decide

/-! ## Download scheduler lemmas -/

/-- One failing attempt prepends its back-off delay and recurses. -/
theorem dwr_step_fail (a : Nat → Bool) (j : Nat → ℚ) (d : ℚ) (i fuel : Nat)
    (h : a i = false) :
    download_with_retries a j d i (fuel + 1) =
      ((download_with_retries a j d (i + 1) fuel).1,
       (download_with_retries a j d (i + 1) fuel).2.1 + 1,
       (d * 2 ^ i + j i) :: (download_with_retries a j d (i + 1) fuel).2.2) := by
  conv_lhs => rw [download_with_retries]
  rw [h]
  simp

/-- A succeeding attempt stops with one request and no delay. -/
theorem dwr_step_ok (a : Nat → Bool) (j : Nat → ℚ) (d : ℚ) (i fuel : Nat)
    (h : a i = true) :
    download_with_retries a j d i (fuel + 1) = (some i, 1, []) := by
  conv_lhs => rw [download_with_retries]
  rw [h]
  simp

/-- The retry loop never issues more requests than its attempt budget. -/
theorem dwr_requests_le (a : Nat → Bool) (j : Nat → ℚ) (d : ℚ) :
    ∀ (fuel i : Nat), (download_with_retries a j d i fuel).2.1 ≤ fuel := by
  intro fuel
  induction fuel with
  | zero =>
    intro i
    simp [download_with_retries]
  | succ n ih =>
    intro i
    by_cases h : a i = true
    · rw [dwr_step_ok a j d i n h]
      simp
    · rw [dwr_step_fail a j d i n (Bool.not_eq_true _ |>.mp h)]
      exact Nat.succ_le_succ (ih (i + 1))

/-- The retry loop always issues at least one request when the budget
is positive. -/
theorem dwr_requests_pos (a : Nat → Bool) (j : Nat → ℚ) (d : ℚ) (i fuel : Nat) :
    1 ≤ (download_with_retries a j d i (fuel + 1)).2.1 := by
  by_cases h : a i = true
  · rw [dwr_step_ok a j d i fuel h]
  · rw [dwr_step_fail a j d i fuel (Bool.not_eq_true _ |>.mp h)]
    exact Nat.le_add_left 1 _

/-- Outcome, request count and delays of `download_task`, expressed
through the retry loop and the write oracle: none of them reads the
pre-existing filesystem. -/
theorem download_task_parts (a : String → Nat → Bool) (j : String → Nat → ℚ)
    (w : String → Bool) (out : String) (fs : List String) (item : MediaItem) :
    (download_task a j w out fs item).1 =
      (match (download_with_retries (a item.url) (j item.url) 2 0 3).1 with
       | none => some item.url
       | some _ =>
         if w (taskFilepath out item) then none else some item.url)
  ∧ (download_task a j w out fs item).2.2.1 =
      (download_with_retries (a item.url) (j item.url) 2 0 3).2.1
  ∧ (download_task a j w out fs item).2.2.2 =
      (download_with_retries (a item.url) (j item.url) 2 0 3).2.2 := by
  unfold download_task save_file
  dsimp only
  rcases h : (download_with_retries (a item.url) (j item.url) 2 0 3).1 with _ | i
  · simp
  · by_cases hw : w (taskFilepath out item) = true
    · simp [hw]
    · have hw2 : w (taskFilepath out item) = false := by
        simpa using hw
      simp [hw2]

/-- The failure list of the download fold is the per-item outcomes of
the queue, each computed independently of the others and of the
threaded filesystem. -/
theorem download_media_failed_go (a : String → Nat → Bool)
    (j : String → Nat → ℚ) (w : String → Bool) (out : String) :
    ∀ (items : List MediaItem) (acc : List String) (fs fs0 : List String),
    (items.foldl
      (fun st item =>
        let r := download_task a j w out st.2 item
        (match r.1 with
         | none => st.1
         | some u => st.1 ++ [u], r.2.1))
      (acc, fs)).1
    = acc ++ items.filterMap (fun it => (download_task a j w out fs0 it).1) := by
  intro items
  induction items with
  | nil =>
    intro acc fs fs0
    simp
  | cons x xs ih =>
    intro acc fs fs0
    have hx : (download_task a j w out fs x).1 =
        (download_task a j w out fs0 x).1 := by
      rw [(download_task_parts a j w out fs x).1,
        (download_task_parts a j w out fs0 x).1]
    simp only [List.foldl_cons, List.filterMap_cons]
    rcases h : (download_task a j w out fs0 x).1 with _ | u
    · rw [hx, h]
      dsimp only
      rw [ih acc _ fs0]
    · rw [hx, h]
      dsimp only
      rw [ih (acc ++ [u]) _ fs0]
      simp

/-! ## C1 — no skip-if-present check -/

/-- C1 counterexample: with the item's destination already present in
the filesystem, the scheduler still issues a network request (here
exactly one, since the first attempt succeeds), contradicting the
claimed skip with no retrieval. -/
theorem c1_counterexample :
    presentFs.contains (taskFilepath ("downloads") presentItem) = true
  ∧ (download_task (fun _ _ => true) (fun _ _ => 0) (fun _ => true)
      ("downloads") presentFs presentItem).2.2.1 = 1 := by
  refine ⟨by decide, by decide⟩

/-- C1 (amended): the Download Scheduler never consults the
pre-existing filesystem: for every item its outcome and request count
are identical whatever files already exist at the destination, and at
least one network request is always issued — an already-present
destination file is overwritten, not skipped. -/
theorem c1_downloads_regardless_of_existing (a : String → Nat → Bool)
    (j : String → Nat → ℚ) (w : String → Bool) (out : String)
    (fs fs2 : List String) (item : MediaItem) :
    (download_task a j w out fs item).1 = (download_task a j w out fs2 item).1
  ∧ (download_task a j w out fs item).2.2.1 =
      (download_task a j w out fs2 item).2.2.1
  ∧ 1 ≤ (download_task a j w out fs item).2.2.1 := by
  refine ⟨?_, ?_, ?_⟩
  · rw [(download_task_parts a j w out fs item).1,
      (download_task_parts a j w out fs2 item).1]
  · rw [(download_task_parts a j w out fs item).2.1,
      (download_task_parts a j w out fs2 item).2.1]
  · rw [(download_task_parts a j w out fs item).2.1]
    exact dwr_requests_pos _ _ _ _ _

/-! ## C5 — retry, backoff and isolation -/

/-- C5 counterexample: an item whose retrieval succeeds on the very
first attempt still lands in the failure report when the disk write of
the response body fails, contradicting the claim that an item
succeeding on any attempt never appears in the report. -/
theorem c5_counterexample :
    (download_media (fun _ _ => true) (fun _ _ => 0) (fun _ => false)
      ("downloads") [] [presentItem]).1 = [presentItem.url] := by
  decide

/-- C5 (amended): for every queued item the scheduler issues at most 3
requests; each failed attempt is followed by a delay of
`2 * 2 ^ attempt + jitter` (shown by the two canonical traces:
fail-fail-succeed and fail-fail-fail); an item whose retrieval succeeds
within 3 attempts and whose disk write succeeds is not in the failure
report; an item failing all 3 attempts is reported; and the report is
the list of per-item outcomes, each computed independently, so one
item's failure never blocks the others. -/
theorem c5_retry_backoff_isolation (a : String → Nat → Bool)
    (j : String → Nat → ℚ) (w : String → Bool) (out : String)
    (fs : List String) (items : List MediaItem) (item : MediaItem) :
    (download_task a j w out fs item).2.2.1 ≤ 3
  ∧ (a item.url 0 = false → a item.url 1 = false → a item.url 2 = true →
      download_with_retries (a item.url) (j item.url) 2 0 3 =
        (some 2, 3, [2 * 2 ^ 0 + j item.url 0, 2 * 2 ^ 1 + j item.url 1]))
  ∧ ((∀ i < 3, a item.url i = false) →
      download_with_retries (a item.url) (j item.url) 2 0 3 =
        (none, 3, [2 * 2 ^ 0 + j item.url 0, 2 * 2 ^ 1 + j item.url 1,
                   2 * 2 ^ 2 + j item.url 2]))
  ∧ ((∃ i, i < 3 ∧ a item.url i = true ∧ ∀ k < i, a item.url k = false) →
      w (taskFilepath out item) = true →
      (download_task a j w out fs item).1 = none)
  ∧ ((∀ i < 3, a item.url i = false) →
      (download_task a j w out fs item).1 = some item.url)
  ∧ (download_media a j w out fs items).1 =
      items.filterMap (fun it => (download_task a j w out fs it).1) := by
  refine ⟨?_, ?_, ?_, ?_, ?_, ?_⟩
  · rw [(download_task_parts a j w out fs item).2.1]
    exact dwr_requests_le _ _ _ 3 0
  · intro h0 h1 h2
    rw [show (3 : Nat) = 2 + 1 from rfl, dwr_step_fail _ _ _ _ _ h0,
      show (2 : Nat) = 1 + 1 from rfl, dwr_step_fail _ _ _ _ _ h1,
      dwr_step_ok _ _ _ _ _ h2]
  · intro hall
    rw [show (3 : Nat) = 2 + 1 from rfl, dwr_step_fail _ _ _ _ _ (hall 0 (by omega)),
      show (2 : Nat) = 1 + 1 from rfl, dwr_step_fail _ _ _ _ _ (hall 1 (by omega)),
      show (1 : Nat) = 0 + 1 from rfl, dwr_step_fail _ _ _ _ _ (hall 2 (by omega))]
    simp [download_with_retries]
  · intro hex hw
    rw [(download_task_parts a j w out fs item).1]
    obtain ⟨i, hi3, hok, hbefore⟩ := hex
    have : (download_with_retries (a item.url) (j item.url) 2 0 3).1 = some i := by
      interval_cases i
      · rw [show (3 : Nat) = 2 + 1 from rfl, dwr_step_ok _ _ _ _ _ hok]
      · rw [show (3 : Nat) = 2 + 1 from rfl,
          dwr_step_fail _ _ _ _ _ (hbefore 0 (by omega)),
          show (2 : Nat) = 1 + 1 from rfl, dwr_step_ok _ _ _ _ _ hok]
      · rw [show (3 : Nat) = 2 + 1 from rfl,
          dwr_step_fail _ _ _ _ _ (hbefore 0 (by omega)),
          show (2 : Nat) = 1 + 1 from rfl,
          dwr_step_fail _ _ _ _ _ (hbefore 1 (by omega)),
          dwr_step_ok _ _ _ _ _ hok]
    rw [this]
    simp [hw]
  · intro hall
    rw [(download_task_parts a j w out fs item).1]
    rw [show (3 : Nat) = 2 + 1 from rfl, dwr_step_fail _ _ _ _ _ (hall 0 (by omega)),
      show (2 : Nat) = 1 + 1 from rfl, dwr_step_fail _ _ _ _ _ (hall 1 (by omega)),
      show (1 : Nat) = 0 + 1 from rfl, dwr_step_fail _ _ _ _ _ (hall 2 (by omega))]
    simp [download_with_retries]
  · unfold download_media
    exact download_media_failed_go a j w out items [] fs fs

/-- C5 witness: under `cAttempt`, `cItem1` fails twice then succeeds on
the third attempt and is not reported; `cItem2` fails all three
attempts and is the only entry of the failure report. -/
theorem c5_witness :
    (download_task cAttempt cJitter cWrite ("downloads") [] cItem1).1 = none
  ∧ (download_task cAttempt cJitter cWrite ("downloads") [] cItem2).1 =
      some neverUrl
  ∧ (download_media cAttempt cJitter cWrite ("downloads") [] [cItem1, cItem2]).1 =
      [neverUrl] := by
  have h1 := c5_retry_backoff_isolation cAttempt cJitter cWrite ("downloads") []
    [cItem1, cItem2] cItem1
  have h2 := c5_retry_backoff_isolation cAttempt cJitter cWrite ("downloads") []
    [cItem1, cItem2] cItem2
  have ho1 : (download_task cAttempt cJitter cWrite ("downloads") [] cItem1).1 =
      none :=
    h1.2.2.2.1 ⟨2, by omega, by decide, by decide⟩ (by decide)
  have ho2 : (download_task cAttempt cJitter cWrite ("downloads") [] cItem2).1 =
      some neverUrl :=
    h2.2.2.2.2.1 (by decide)
  refine ⟨ho1, ho2, ?_⟩
  rw [h1.2.2.2.2.2]
  simp [List.filterMap_cons, ho1, ho2]

/-! ## C6 and C10 — extractor order and classification -/

/-- Filtering a list further by the emitter being defined does not
change what `filterMap` produces. -/
theorem filterMap_filter_isSome {α β : Type} (f : α → Option β) (q : α → Bool) :
    ∀ l : List α,
      (l.filter (fun e => q e && (f e).isSome)).filterMap f =
      (l.filter q).filterMap f := by
  intro l
  induction l with
  | nil => rfl
  | cons x xs ih =>
    by_cases hq : q x = true
    · rcases hf : f x with _ | b
      · simp [List.filter_cons, hq, hf, List.filterMap_cons, ih]
      · simp [List.filter_cons, hq, hf, List.filterMap_cons, ih]
    · simp [List.filter_cons, hq, ih]

/-- C6 counterexample: with an anchor candidate preceding an image
candidate in document order, extraction emits the image item first
(tag-kind scan order), so the output is not in document order and
differs from what a single document-order pass would produce. -/
theorem c6_counterexample :
    (get_media_links_with_metadata orderHtml demoBase demoBase).map
      (fun it => it.tag) = [("img"), ("a")]
  ∧ orderHtml.map (fun e => e.name) = [("a"), ("img")]
  ∧ get_media_links_with_metadata orderHtml demoBase demoBase ≠
      orderHtml.filterMap (emitElement demoBase demoBase) := by
  refine ⟨by decide, by decide, by decide⟩

/-- C6 (amended): the extractor is a pure function producing a finite
list; it is deterministic; its output is the concatenation of the four
tag-kind groups in the fixed scan order img, video, source, a; and
within each group the emitting elements form a document-order
subsequence of the content, each contributing its item in that
order. -/
theorem c6_extractor_deterministic_grouped (html : List Element) (b p : String) :
    get_media_links_with_metadata html b p = get_media_links_with_metadata html b p
  ∧ get_media_links_with_metadata html b p =
      extractGroup html b p ("img") ("src") ++
      (extractGroup html b p ("video") ("src") ++
       (extractGroup html b p ("source") ("src") ++
        extractGroup html b p ("a") ("href")))
  ∧ ∀ tn attr : String, ∃ sub : List Element, sub.Sublist html ∧
      extractGroup html b p tn attr = sub.filterMap (extractFromTag b p attr) ∧
      ∀ e ∈ sub, (extractFromTag b p attr e).isSome = true := by
  refine ⟨rfl, ?_, ?_⟩
  · simp [get_media_links_with_metadata, tags_and_attrs, extractGroup,
      List.flatMap_cons, List.flatMap_nil]
  · intro tn attr
    refine ⟨html.filter
      (fun e => (e.name = tn : Bool) && (extractFromTag b p attr e).isSome),
      List.filter_sublist html, ?_, ?_⟩
    · rw [extractGroup, filterMap_filter_isSome]
    · intro e he
      rw [List.mem_filter] at he
      exact (Bool.and_eq_true _ _ |>.mp he.2).2

/-- C10 counterexample: the anchor target `https://c.test/dl?f=x.png`
ends in an allow-listed extension (inside its query string), so it is
extracted, but its derived filename `dl_...` has no extension and the
item classifies as `Others`. -/
theorem c10_counterexample :
    (get_media_links_with_metadata queryHtml demoBase demoBase).map
      (fun it => get_media_type (String.mk (splitextL it.filename.toList).2)) =
      [("Others")] := by
  decide

/-- C10 (amended): every extracted item stems from a source attribute
ending (case-insensitively) in an allow-listed extension, and its url
and filename are derived from that source; the item classifies into one
of the four categories whenever its derived filename's extension
(lowercased) is itself allow-listed — but when the matched extension
sits in the query or fragment, or the basename is a pure dotfile, the
derived extension is empty and the item routes to `Others`. -/
theorem c10_extracted_classification (html : List Element) (b p : String)
    (it : MediaItem) (hmem : it ∈ get_media_links_with_metadata html b p) :
    (∃ src : String,
        MEDIA_EXTENSIONS.any
          (fun ext => endsWithL (lowerL src.toList) ext.toList) = true ∧
        it.url = clean_url src b ∧
        it.filename = get_unique_filename (clean_url src b))
  ∧ (lowerS (String.mk (splitextL it.filename.toList).2) ∈ MEDIA_EXTENSIONS →
      get_media_type (String.mk (splitextL it.filename.toList).2) ≠ ("Others")) := by
  constructor
  · rw [get_media_links_with_metadata, List.mem_flatMap] at hmem
    obtain ⟨ta, _, hmem2⟩ := hmem
    rw [List.mem_filterMap] at hmem2
    obtain ⟨e, _, hemit⟩ := hmem2
    unfold extractFromTag at hemit
    rcases hl : e.attrs.lookup ta.2 with _ | src
    · rw [hl] at hemit
      cases hemit
    · rw [hl] at hemit
      dsimp only at hemit
      split_ifs at hemit with h1 h2
      cases hemit
      exact ⟨src, h2, rfl, rfl⟩
  · intro hmemext hothers
    rw [get_media_type_eq_others_iff] at hothers
    exact hothers hmemext

/-- C10 witness: the item extracted from a plain image reference
classifies as Images, not Others. -/
theorem c10_witness :
    imgItem ∈ get_media_links_with_metadata imgHtml demoBase demoBase
  ∧ get_media_type (String.mk (splitextL imgItem.filename.toList).2) ≠
      ("Others") := by
  have hmem : imgItem ∈ get_media_links_with_metadata imgHtml demoBase demoBase := by
    decide
  exact ⟨hmem,
    (c10_extracted_classification imgHtml demoBase demoBase imgItem hmem).2
      (by decide)⟩

/-! ## Pagination loop step lemmas -/

/-- Failed fetch at the consecutive-failure threshold stops the loop. -/
theorem crawlFrom_fail_stop (net : String → Option (List Element)) (s : String)
    (fuel page cf : Nat) (seen : List String) (acc : List MediaItem)
    (fetched : List String)
    (h : net (update_url_page s page) = none) (hcf : cf + 1 ≥ 3) :
    crawlFrom net s (fuel + 1) page cf seen acc fetched =
      ⟨acc, seen, StopReason.tooManyFailures,
        fetched ++ [update_url_page s page]⟩ := by
  conv_lhs => rw [crawlFrom]
  dsimp only
  rw [h, if_pos hcf]

/-- Failed fetch below the threshold advances to the next page with the
counter incremented. -/
theorem crawlFrom_fail_cont (net : String → Option (List Element)) (s : String)
    (fuel page cf : Nat) (seen : List String) (acc : List MediaItem)
    (fetched : List String)
    (h : net (update_url_page s page) = none) (hcf : ¬ cf + 1 ≥ 3) :
    crawlFrom net s (fuel + 1) page cf seen acc fetched =
      crawlFrom net s fuel (page + 1) (cf + 1) seen acc
        (fetched ++ [update_url_page s page]) := by
  conv_lhs => rw [crawlFrom]
  dsimp only
  rw [h, if_neg hcf]

/-- Successful fetch with zero new items stops with `NoNewMedia`,
returning the accumulated collection. -/
theorem crawlFrom_ok_stop (net : String → Option (List Element)) (s : String)
    (fuel page cf : Nat) (seen : List String) (acc : List MediaItem)
    (fetched : List String) (html : List Element)
    (h : net (update_url_page s page) = some html)
    (hnew : (get_media_links_with_metadata html (update_url_page s page)
        (update_url_page s page)).filter
        (fun it => ¬ seen.contains it.url) = []) :
    crawlFrom net s (fuel + 1) page cf seen acc fetched =
      ⟨acc, seen, StopReason.noNewMedia,
        fetched ++ [update_url_page s page]⟩ := by
  conv_lhs => rw [crawlFrom]
  dsimp only
  rw [h]
  dsimp only
  rw [if_pos hnew]

/-- Successful fetch with new items registers them, appends them to the
collection, resets the failure counter to 0 and advances. -/
theorem crawlFrom_ok_cont (net : String → Option (List Element)) (s : String)
    (fuel page cf : Nat) (seen : List String) (acc : List MediaItem)
    (fetched : List String) (html : List Element)
    (h : net (update_url_page s page) = some html)
    (hnew : (get_media_links_with_metadata html (update_url_page s page)
        (update_url_page s page)).filter
        (fun it => ¬ seen.contains it.url) ≠ []) :
    crawlFrom net s (fuel + 1) page cf seen acc fetched =
      crawlFrom net s fuel (page + 1) 0
        (addAllSeen seen ((get_media_links_with_metadata html
            (update_url_page s page) (update_url_page s page)).filter
          (fun it => ¬ seen.contains it.url)))
        (acc ++ (get_media_links_with_metadata html
            (update_url_page s page) (update_url_page s page)).filter
          (fun it => ¬ seen.contains it.url))
        (fetched ++ [update_url_page s page]) := by
  conv_lhs => rw [crawlFrom]
  dsimp only
  rw [h]
  dsimp only
  rw [if_neg hnew]

/-! ## C3 — three consecutive failures -/

/-- C3 (confirmed): in pagination mode with every fetch failing, the
driver stops with `TooManyFailures` after fetching exactly pages 1, 2
and 3 — far below the 100-page ceiling; and after any successful fetch
the continuation is independent of the incoming consecutive-failure
count (the counter is reset), so only back-to-back failures count. -/
theorem c3_stops_after_three_consecutive_failures
    (net : String → Option (List Element)) (s : String)
    (hp : has_pagination s = true) (hfail : ∀ u, net u = none) :
    (mainCrawl net s).reason = StopReason.tooManyFailures
  ∧ (mainCrawl net s).fetched =
      [update_url_page s 1, update_url_page s 2, update_url_page s 3]
  ∧ ∀ (net2 : String → Option (List Element)) (s2 : String)
      (fuel page cf cf2 : Nat) (seen : List String) (acc : List MediaItem)
      (fetched : List String),
      net2 (update_url_page s2 page) ≠ none →
      crawlFrom net2 s2 (fuel + 1) page cf seen acc fetched =
        crawlFrom net2 s2 (fuel + 1) page cf2 seen acc fetched := by
  have hrun : mainCrawl net s =
      ⟨[], [], StopReason.tooManyFailures,
        [update_url_page s 1, update_url_page s 2, update_url_page s 3]⟩ := by
    unfold mainCrawl
    rw [if_pos hp,
      show (100 : Nat) = 99 + 1 from rfl,
      crawlFrom_fail_cont net s 99 1 0 [] [] [] (hfail _) (by omega),
      show (99 : Nat) = 98 + 1 from rfl,
      crawlFrom_fail_cont net s 98 2 1 [] []
        ([] ++ [update_url_page s 1]) (hfail _) (by omega),
      show (98 : Nat) = 97 + 1 from rfl,
      crawlFrom_fail_stop net s 97 3 2 [] []
        (([] ++ [update_url_page s 1]) ++ [update_url_page s 2])
        (hfail _) (by omega)]
    simp
  refine ⟨by rw [hrun], by rw [hrun], ?_⟩
  intro net2 s2 fuel page cf cf2 seen acc fetched hne
  rcases hx : net2 (update_url_page s2 page) with _ | html
  · exact absurd hx hne
  · conv_lhs => rw [crawlFrom]
    conv_rhs => rw [crawlFrom]
    dsimp only
    rw [hx]

/-- C3 witness: with the all-failing network and the concrete paged
start URL, exactly pages 1-3 are fetched and the stop reason is
`TooManyFailures`; with a network serving page 1, the continuation at
page 1 is the same whether the incoming counter is 0 or 2. -/
theorem c3_witness :
    (mainCrawl (fun _ => none) pagedStart).reason = StopReason.tooManyFailures
  ∧ (mainCrawl (fun _ => none) pagedStart).fetched =
      [update_url_page pagedStart 1, update_url_page pagedStart 2,
       update_url_page pagedStart 3]
  ∧ crawlFrom dupNet pagedStart (7 + 1) 1 0 [] [] [] =
      crawlFrom dupNet pagedStart (7 + 1) 1 2 [] [] [] := by
  have h := c3_stops_after_three_consecutive_failures (fun _ => none) pagedStart
    (by decide) (fun _ => rfl)
  exact ⟨h.1, h.2.1, h.2.2 dupNet pagedStart 7 1 0 2 [] [] [] (by decide)⟩

/-! ## C4 — termination on zero new items -/

/-- C4 (confirmed): pagination mode runs the crawl loop, and whenever a
successfully fetched page yields zero items new to the registry, the
loop returns at once with reason `NoNewMedia`, the collection
accumulated so far, and no further page fetched. -/
theorem c4_zero_new_items_stops (net : String → Option (List Element))
    (s : String) (fuel page cf : Nat) (seen : List String)
    (acc : List MediaItem) (fetched : List String) (html : List Element)
    (hfetch : net (update_url_page s page) = some html)
    (hnonew : (get_media_links_with_metadata html (update_url_page s page)
        (update_url_page s page)).filter
        (fun it => ¬ seen.contains it.url) = []) :
    (has_pagination s = true →
      mainCrawl net s = crawlFrom net s 100 1 0 [] [] [])
  ∧ crawlFrom net s (fuel + 1) page cf seen acc fetched =
      ⟨acc, seen, StopReason.noNewMedia,
        fetched ++ [update_url_page s page]⟩ := by
  constructor
  · intro hp
    unfold mainCrawl
    rw [if_pos hp]
  · exact crawlFrom_ok_stop net s fuel page cf seen acc fetched html hfetch hnonew

/-- C4 witness: with page 2 serving only the already-registered
`a.png`, the loop at page 2 stops with `NoNewMedia` and returns the
accumulated state untouched. -/
theorem c4_witness :
    crawlFrom dupNet pagedStart (5 + 1) 2 0 [("https://c.test/a.png")] [] [] =
      ⟨[], [("https://c.test/a.png")], StopReason.noNewMedia,
        [] ++ [update_url_page pagedStart 2]⟩ :=
  (c4_zero_new_items_stops dupNet pagedStart 5 2 0 [("https://c.test/a.png")]
    [] [] dupPage (by decide) (by decide)).2

/-! ## C2 — registry and collection -/

/-- Membership after a single registry insertion. -/
theorem mem_addSeen (seen : List String) (v u : String) :
    u ∈ addSeen seen v ↔ u ∈ seen ∨ u = v := by
  unfold addSeen
  by_cases h : seen.contains v = true
  · rw [if_pos h]
    constructor
    · tauto
    · rintro (hu | rfl)
      · exact hu
      · exact List.elem_iff.mp h
  · rw [if_neg h]
    simp

/-- Membership after registering a batch of items. -/
theorem mem_addAllSeen (items : List MediaItem) : ∀ (seen : List String)
    (u : String), u ∈ addAllSeen seen items ↔
      u ∈ seen ∨ u ∈ items.map (fun it => it.url) := by
  induction items with
  | nil =>
    intro seen u
    simp [addAllSeen]
  | cons x xs ih =>
    intro seen u
    rw [show addAllSeen seen (x :: xs) = addAllSeen (addSeen seen x.url) xs
      from rfl, ih, mem_addSeen]
    simp only [List.map_cons, List.mem_cons]
    tauto

/-- The crawl loop preserves the invariant that the URL set of the
collection equals the registry's contents. -/
theorem crawlFrom_urls_iff (net : String → Option (List Element)) (s : String) :
    ∀ (fuel page cf : Nat) (seen : List String) (acc : List MediaItem)
      (fetched : List String),
      (∀ u, u ∈ acc.map (fun it => it.url) ↔ u ∈ seen) →
      ∀ u, u ∈ (crawlFrom net s fuel page cf seen acc fetched).items.map
          (fun it => it.url) ↔
        u ∈ (crawlFrom net s fuel page cf seen acc fetched).seen := by
  intro fuel
  induction fuel with
  | zero =>
    intro page cf seen acc fetched hinv u
    exact hinv u
  | succ n ih =>
    intro page cf seen acc fetched hinv u
    rcases hx : net (update_url_page s page) with _ | html
    · by_cases hcf : cf + 1 ≥ 3
      · rw [crawlFrom_fail_stop net s n page cf seen acc fetched hx hcf]
        exact hinv u
      · rw [crawlFrom_fail_cont net s n page cf seen acc fetched hx hcf]
        exact ih _ _ _ _ _ hinv u
    · by_cases hnew : (get_media_links_with_metadata html (update_url_page s page)
          (update_url_page s page)).filter
          (fun it => ¬ seen.contains it.url) = []
      · rw [crawlFrom_ok_stop net s n page cf seen acc fetched html hx hnew]
        exact hinv u
      · rw [crawlFrom_ok_cont net s n page cf seen acc fetched html hx hnew]
        apply ih
        intro v
        rw [mem_addAllSeen]
        simp only [List.map_append, List.mem_append]
        rw [hinv v]

/-- C2 counterexample: a page carrying the same image URL twice passes
both copies through the page-level check, so the collection ends with
two entries sharing one URL — the claimed no-duplicates consequence
fails (while the registry keeps a single copy). -/
theorem c2_counterexample :
    (mainCrawl dupNet pagedStart).items.map (fun it => it.url) =
      [("https://c.test/a.png"), ("https://c.test/a.png")]
  ∧ ¬ List.Pairwise (fun x y : MediaItem => x.url ≠ y.url)
      (mainCrawl dupNet pagedStart).items := by
  refine ⟨by decide, by decide⟩

/-- C2 (amended): after any crawl the URL set of the result collection
equals the registry's contents; an extracted item of a page enters the
appended batch exactly when its URL was not in the registry at the
page-level check, taken before any of that page's insertions — so two
copies of one URL on a single page are both appended; and on such a
page the loop continues with the batch registered and appended. -/
theorem c2_registry_matches_collection (net : String → Option (List Element))
    (s : String) :
    (∀ u, u ∈ (mainCrawl net s).items.map (fun it => it.url) ↔
        u ∈ (mainCrawl net s).seen)
  ∧ (∀ (items : List MediaItem) (seen : List String) (it : MediaItem),
      it ∈ items.filter (fun x => ¬ seen.contains x.url) ↔
        it ∈ items ∧ seen.contains it.url = false)
  ∧ (∀ (fuel page cf : Nat) (seen : List String) (acc : List MediaItem)
      (fetched : List String) (html : List Element),
      net (update_url_page s page) = some html →
      (get_media_links_with_metadata html (update_url_page s page)
        (update_url_page s page)).filter
        (fun it => ¬ seen.contains it.url) ≠ [] →
      crawlFrom net s (fuel + 1) page cf seen acc fetched =
        crawlFrom net s fuel (page + 1) 0
          (addAllSeen seen ((get_media_links_with_metadata html
              (update_url_page s page) (update_url_page s page)).filter
            (fun it => ¬ seen.contains it.url)))
          (acc ++ (get_media_links_with_metadata html
              (update_url_page s page) (update_url_page s page)).filter
            (fun it => ¬ seen.contains it.url))
          (fetched ++ [update_url_page s page])) := by
  refine ⟨?_, ?_, ?_⟩
  · unfold mainCrawl
    by_cases hp : has_pagination s = true
    · rw [if_pos hp]
      exact crawlFrom_urls_iff net s 100 1 0 [] [] [] (by simp)
    · rw [if_neg hp]
      rcases hx : net s with _ | html
      · intro u
        simp
      · intro u
        dsimp only
        rw [mem_addAllSeen]
        simp
  · intro items seen it
    rw [List.mem_filter]
    simp
  · intro fuel page cf seen acc fetched html hx hnew
    exact crawlFrom_ok_cont net s fuel page cf seen acc fetched html hx hnew

/-- C2 witness: the page-level step at page 1 of the duplicate-page
network, with an empty registry, registers and appends the filtered
batch in one transition. -/
theorem c2_witness :
    crawlFrom dupNet pagedStart (5 + 1) 1 0 [] [] [] =
      crawlFrom dupNet pagedStart 5 (1 + 1) 0
        (addAllSeen [] ((get_media_links_with_metadata dupPage
            (update_url_page pagedStart 1) (update_url_page pagedStart 1)).filter
          (fun it => ¬ ([] : List String).contains it.url)))
        ([] ++ (get_media_links_with_metadata dupPage
            (update_url_page pagedStart 1) (update_url_page pagedStart 1)).filter
          (fun it => ¬ ([] : List String).contains it.url))
        ([] ++ [update_url_page pagedStart 1]) :=
  (c2_registry_matches_collection dupNet pagedStart).2.2 5 1 0 [] [] [] dupPage
    (by decide) (by decide)

end Scraper
